import Mathlib

/-!
# Verification of the Extendables ad-hoc module system

A shallow embedding of the module import system of `src/minified.jsx`
(the `require` / `extract` / `Module` / `load_modules` block, lines
2238–2368, together with the log buffer of line 3, the buffered-log
flush of lines 2399–2411, and the `Object.prototype` extensions that
matter for `extract`'s `for (var name in module)` loop).

External collaborators (the ExtendScript filesystem objects `File` /
`Folder` and `$.evalFile`) are modelled by a small filesystem tree
(`Entry`) and a deterministic semantics for a module body
(`Source`: either the body runs to completion having populated the
`exports` container, or it raises after partially populating it).
Side effects (executions of module bodies via `$.evalFile`, and pushes
onto `log_buffer`) are made explicit as an ordered list of `Event`s.
-/

namespace Extendables

/-- A JavaScript value stored in an exports mapping (enough structure for
the scenarios exercised here; `vfun s` stands for a function object such as
the ones the library installs on `Object.prototype`). -/
inductive Value where
  | vnum (n : Int)
  | vbool (b : Bool)
  | vstr (s : String)
  | vfun (name : String)
  deriving DecidableEq, Repr

/-- An exports container: the mapping a module body populates. -/
abbrev Exports := List (String × Value)

/-- Deterministic semantics of one module body as run by `$.evalFile`
inside `Module.eval`'s scope: the body either completes, leaving `exports`
with the given bindings, or raises an exception after having made the
given partial bindings. -/
inductive Source where
  | ok (exports : Exports)
  | throws (partExports : Exports) (err : String)
  deriving DecidableEq, Repr

/-- A filesystem entry as seen through the ExtendScript `File`/`Folder`
collaborator: a leaf file (with the module-body semantics of its
contents), a folder with its child entries, or an alias.  An alias
"registers as a file" (`is(Folder)` is false on it) until `resolve()` is
called, which returns its target. -/
inductive Entry where
  | file (name : String) (src : Source)
  | folder (name : String) (contents : List Entry)
  | fsalias (name : String) (target : Entry)

/-- `name` / `displayName` of a filesystem entry. -/
def Entry.name : Entry → String
  | .file n _ => n
  | .folder n _ => n
  | .fsalias n _ => n

/-- `file_or_folder.is(Folder)`: an alias registers as a file, even if it
refers to a folder (see the comment in `load_modules`). -/
def Entry.isFolder : Entry → Bool
  | .folder _ _ => true
  | _ => false

/-- `file_or_folder.resolve()` for an alias; identity on regular entries. -/
def Entry.resolve : Entry → Entry
  | .fsalias _ t => t
  | e => e

/-- `$.evalFile` follows aliases when opening a path; evaluating a folder
path (or any non-source file) raises, which `Module.eval` catches. -/
def Entry.source : Entry → Source
  | .file _ s => s
  | .folder _ _ => .throws [] "IOError: cannot evaluate a folder"
  | .fsalias _ t => t.source

/-- Whether the character list `l` begins with `p`. -/
def listBeginsWith : List Char → List Char → Bool
  | _, [] => true
  | [], _ :: _ => false
  | c :: cs, p :: ps => c = p && listBeginsWith cs ps

/-- `s.endswith(suffix)` (the `String.prototype.endswith` patch of the
library, here only needed on entry names). -/
def strEndsWith (s suffix : String) : Bool :=
  listBeginsWith s.data.reverse suffix.data.reverse

/-- JavaScript `String.prototype.split` with a one-character separator,
on character lists: `split` of the empty string is `[""]`, a trailing
separator yields a trailing empty piece, exactly as in JS. -/
def splitChars (sep : Char) : List Char → List (List Char)
  | [] => [[]]
  | c :: rest =>
      let r := splitChars sep rest
      if c = sep then [] :: r
      else (c :: r.headD []) :: r.tail

/-- `s.split(sep)` for a single-character separator, as used by
`module_id.split('/')` in `require` and `displayName.split('.')` in the
`Module` constructor. -/
def jsSplit (s : String) (sep : Char) : List String :=
  (splitChars sep s.data).map String.mk

/--
```
function _is_valid_module (file_or_folder) {
    return file_or_folder.is(Folder) || file_or_folder.name.endswith(".jsx");
}
```
-/
def _is_valid_module (file_or_folder : Entry) : Bool :=
  file_or_folder.isFolder || strEndsWith file_or_folder.name ".jsx"

/-- `file_or_folder.displayName.split('.')[0]` — the module id is the part
of the entry name before the first dot. -/
def displayId (name : String) : String :=
  (jsSplit name '.').headD ""

/-- Look up a child folder by name (used for the `./lib` hop of
`extract_submodules` and the `test` folder of `get_tests`). -/
def findFolder : List Entry → String → Option (List Entry)
  | [], _ => none
  | .folder n cs :: rest, k => if n = k then some cs else findFolder rest k
  | _ :: rest, k => findFolder rest k

/-- `base.changePath("./lib")` then reading the entries: the contents of
the `lib` child folder (empty when there is none). -/
def libContents (cs : List Entry) : List Entry :=
  (findFolder cs "lib").getD []

/-- A constructed `Module` object: its `id`, `packaged` flag
(`file_or_folder.is(Folder)`), the module-body semantics behind its
`uri` (for leaves), the raw contents of its directory (for `get_tests`),
and its `submodules` mapping. -/
inductive Module where
  | mk (id : String) (packaged : Bool) (src : Source)
       (dirContents : List Entry)
       (submodules : List (String × Module))

def Module.id : Module → String
  | .mk i _ _ _ _ => i

def Module.packaged : Module → Bool
  | .mk _ p _ _ _ => p

def Module.src : Module → Source
  | .mk _ _ s _ _ => s

def Module.dirContents : Module → List Entry
  | .mk _ _ _ d _ => d

def Module.submodules : Module → List (String × Module)
  | .mk _ _ _ _ s => s

/-- Assignment into a JavaScript object used as a map
(`self.submodules[submodule.id] = submodule`): a later assignment to the
same key silently overwrites the earlier one. -/
def setKey {α : Type} : List (String × α) → String → α → List (String × α)
  | [], k, v => [(k, v)]
  | (k', v') :: rest, k, v =>
      if k' = k then (k, v) :: rest else (k', v') :: setKey rest k v

/-- Property read on a JavaScript object used as a map
(`self.submodules[term]`, `__modules__[module]`); `none` is `undefined`. -/
def getKey {α : Type} : List (String × α) → String → Option α
  | [], _ => none
  | (k', v) :: rest, k => if k' = k then some v else getKey rest k

mutual

/-- The `Module` constructor as invoked for submodules
(`new Module(submodule)`, so with `is_package` left `undefined`):
`id` from `displayName`, `packaged = file_or_folder.is(Folder)`, and —
for a folder — `extract_submodules` scanning the folder's own contents
(the `changePath("./lib")` hop happens only when `is_package` is truthy,
which it never is on this path). -/
def buildModule : Entry → Module
  | .file n s => .mk (displayId n) false s [] []
  | .fsalias n t => .mk (displayId n) false t.source [] []
  | .folder n cs =>
      .mk (displayId n) true (Source.throws [] "IOError: cannot evaluate a folder")
        cs (buildSubmodules cs [])

/-- `extract_submodules`' scan of a list of entries:
`base.getFiles(_is_valid_module)` keeps the entries satisfying
`_is_valid_module`, and the `forEach` then builds a `Module` from each, in
order, assigning it into the `submodules` map (`self.submodules
[submodule.id] = submodule`, later ids overwriting earlier ones).  The
filter and the `forEach` are merged into one pass over the entries. -/
def buildSubmodules : List Entry → List (String × Module) → List (String × Module)
  | [], acc => acc
  | e :: rest, acc =>
      if _is_valid_module e then
        buildSubmodules rest (setKey acc (buildModule e).id (buildModule e))
      else
        buildSubmodules rest acc

end

/-- The `Module` constructor as invoked from `load_modules`
(`new Module(file_or_folder, true)`): identical to `buildModule` except
that, for a folder, `extract_submodules` first does
`base.changePath("./lib")` and scans the `lib` child instead of the
folder itself. -/
def buildModuleTop : Entry → Module
  | .file n s => .mk (displayId n) false s [] []
  | .fsalias n t => .mk (displayId n) false t.source [] []
  | .folder n cs =>
      .mk (displayId n) true (Source.throws [] "IOError: cannot evaluate a folder")
        cs (buildSubmodules (libContents cs) [])

/-- The top-level module registry `__modules__`. -/
abbrev Registry := List (String × Module)

/--
```
function load_modules (packagefolders) { ... }
```
Each configured search directory contributes its valid entries; each
entry is alias-resolved (`if (file_or_folder.alias) file_or_folder =
file_or_folder.resolve();`) and then wrapped in
`new Module(file_or_folder, true)` and assigned into `__modules__` by id.
A search directory is modelled by its list of entries (the
string-to-`Folder` step is part of the filesystem collaborator). -/
def load_modules (packagefolders : List (List Entry)) : Registry :=
  packagefolders.foldl
    (fun reg contents =>
      (contents.filter _is_valid_module).foldl
        (fun reg file_or_folder =>
          let m := buildModuleTop file_or_folder.resolve
          setKey reg m.id m)
        reg)
    []

/-- An observable side effect of loading: an execution of a module body by
`$.evalFile` (tagged with the module's id), or a push onto `log_buffer`. -/
inductive Event where
  | evaluated (id : String)
  | logged (level : Nat) (msg : String)
  deriving DecidableEq, Repr

def Event.isEval : Event → Bool
  | .evaluated _ => true
  | .logged _ _ => false

def Event.isLog : Event → Bool
  | .evaluated _ => false
  | .logged _ _ => true

/-- How many module-body executions a trace contains. -/
def countEvals (events : List Event) : Nat :=
  (events.filter Event.isEval).length

/-- The log messages a trace contains. -/
def loggedEvents (events : List Event) : List Event :=
  events.filter Event.isLog

/-- The outcome of a `load()` call: the exports value the caller reads off
the returned module object, plus the ordered side effects the call made. -/
structure LoadOut where
  exports : Exports
  events : List Event
  deriving DecidableEq, Repr

/-- The message of the `TypeError` ExtendScript raises when a property of
`undefined` is accessed (`undefined.get_submodule(...)`,
`undefined.load()`); note it does not mention any module identifier. -/
def typeErrorMsg : String := "TypeError: undefined is not an object"

/--
```
this.eval = function (file) {
    var exports = {};
    var module = { 'id': self.id, 'uri': self.uri };
    try {
        $.evalFile(file);
    } catch (error) {
        log_buffer.push([3, "Could not fully load " + module.id + "\n" + error]);
    }
    return exports;
};
```
Executing the body populates the fresh `exports` container; an exception
is caught, one message is pushed onto `log_buffer`, and the (partial or
empty) container is still returned. -/
def Module.eval (m : Module) : LoadOut :=
  match m.src with
  | .ok e => { exports := e, events := [.evaluated m.id] }
  | .throws part err =>
      { exports := part,
        events := [.evaluated m.id,
                   .logged 3 ("Could not fully load " ++ m.id ++ "\n" ++ err)] }

mutual

/--
```
this.load = function () {
    if (self.packaged) {
        self.exports = self.submodules['index'].load().exports;
    } else {
        self.exports = self.eval(self.uri);
    }
    return self
}
```
There is no memoization: every call recomputes.  For a package, the
`index` submodule is looked up; when it is absent the call
`undefined.load()` raises a `TypeError` that is not caught anywhere in
`load` (`.error`).  The caller observes the exports value stored on the
returned module object. -/
def Module.load : Module → Except String LoadOut
  | .mk i packaged src dc subs =>
      if packaged then loadIndexOf subs
      else .ok (Module.eval (.mk i packaged src dc subs))

/-- `self.submodules['index'].load()`: walk the submodule map for the key
`"index"` (keys are unique, see `setKey`) and load the entry; when no
entry exists the member access on `undefined` raises. -/
def loadIndexOf : List (String × Module) → Except String LoadOut
  | [] => .error typeErrorMsg
  | (k, m) :: rest => if k = "index" then Module.load m else loadIndexOf rest

end

/--
```
this.get_submodule = function (terms) {
    var submodule = self.submodules[terms.shift()]
    if (terms.length) {
        return submodule.get_submodule(terms);
    } else {
        return submodule;
    }
};
```
`.ok none` is the JS function returning `undefined`; `.error` is the
`TypeError` raised by calling `get_submodule` on `undefined` when an
intermediate segment is missing.  Note no branch mentions the requested
identifier. -/
def Module.get_submodule : Module → List String → Except String (Option Module)
  | _, [] => .ok none
  | m, t :: rest =>
      if rest.isEmpty then .ok (getKey m.submodules t)
      else
        match getKey m.submodules t with
        | none => .error typeErrorMsg
        | some sub => sub.get_submodule rest

/--
```
function require (module_id) {
    var terms = module_id.split('/');
    var module = terms.shift();
    if (__modules__.hasOwnProperty(module)) {
        if (terms.length) {
            return __modules__[module].get_submodule(terms).load().exports;
        } else {
            return __modules__[module].load().exports;
        }
    } else {
        throw Error("No package named " + module_id);
    }
}
```
When `get_submodule` returns `undefined` (`.ok none`), the chained
`.load()` on `undefined` raises the generic `TypeError`. -/
def require (registry : Registry) (module_id : String) : Except String LoadOut :=
  match jsSplit module_id '/' with
  | [] => .error ("No package named " ++ module_id)
  | first :: terms =>
      match getKey registry first with
      | some pkg =>
          if terms.isEmpty then pkg.load
          else
            match pkg.get_submodule terms with
            | .error e => .error e
            | .ok none => .error typeErrorMsg
            | .ok (some sub) => sub.load
      | none => .error ("No package named " ++ module_id)

/-- The events observed by a caller of `require` (a call that throws has
produced no event: nothing is evaluated or logged before any of the
`throw` points). -/
def runEvents : Except String LoadOut → List Event
  | .ok out => out.events
  | .error _ => []

/-- Two consecutive `require` calls for the same identifier against the
same (read-only) registry: the observed trace is the concatenation of the
two calls' traces. -/
def requireTwiceTrace (registry : Registry) (module_id : String) : List Event :=
  runEvents (require registry module_id) ++ runEvents (require registry module_id)

/--
```
this.get_tests = function () {
    var testfolder = new Folder("test").at(self.uri);
    if (testfolder.exists) {
        return testfolder.getFiles("*.specs");
    } else {
        return [];
    }
}
```
`new Folder("test").at(self.uri)` denotes the `test` child of the
module's own directory; `Folder#exists` is true only when an actual
folder is there; the mask `"*.specs"` keeps the entries whose name ends
in `".specs"`. -/
def Module.get_tests (m : Module) : List Entry :=
  match findFolder m.dirContents "test" with
  | some tcs => tcs.filter (fun e => strEndsWith e.name ".specs")
  | none => []

/-- The enumerable properties this library installs on `Object.prototype`
(lines 19–1455: `merge`, `extend`, `clone`, `keys`, `values`, `is`,
`has`, `has_own`, `to_console`, `serialize`, `deserialize`, `to`).
ExtendScript is an ES3 engine: properties created by plain assignment are
enumerable, so `for (var name in obj)` over any plain object reaches
them. -/
def objectPrototypeExtensions : List (String × Value) :=
  [("merge", .vfun "merge"), ("extend", .vfun "extend"),
   ("clone", .vfun "clone"), ("keys", .vfun "keys"),
   ("values", .vfun "values"), ("is", .vfun "is"),
   ("has", .vfun "has"), ("has_own", .vfun "has_own"),
   ("to_console", .vfun "to_console"), ("serialize", .vfun "serialize"),
   ("deserialize", .vfun "deserialize"), ("to", .vfun "to")]

/-- `for (var name in module)` over an exports object, with the value read
for each name: first the object's own properties in insertion order, then
the enumerable `Object.prototype` extensions that are not shadowed by an
own property. -/
def forInProps (obj : Exports) : List (String × Value) :=
  obj ++ objectPrototypeExtensions.filter (fun p => (getKey obj p.1).isNone)

/--
```
function extract (module_id) {
    var module = require(module_id);
    for (var name in module) {
        $.global[name] = module[name];
    }
}
```
`global` is the state of `$.global`, modelled as a mapping. -/
def extract (registry : Registry) (module_id : String)
    (global : List (String × Value)) : Except String (List (String × Value)) :=
  match require registry module_id with
  | .error e => .error e
  | .ok out => .ok ((forInProps out.exports).foldl (fun g p => setKey g p.1 p.2) global)

/-- Whether `sub` occurs as a contiguous substring of the character
list `l`. -/
def listContainsSub : List Char → List Char → Bool
  | [], sub => sub.isEmpty
  | c :: rest, sub => listBeginsWith (c :: rest) sub || listContainsSub rest sub

/-- Whether the error message `msg` mentions the string `sub`
(contiguous-substring containment). -/
def strMentions (msg sub : String) : Bool :=
  listContainsSub msg.data sub.data

/-- A buffered log message: severity level and message text
(format arguments elided). -/
abbrev LogMessage := Nat × String

/-- `log_buffer.push(message)` (line 3: `var log_buffer = [];`): a message
issued before the logger exists is appended at the end of the buffer. -/
def logBufferPush (buf : List LogMessage) (m : LogMessage) : List LogMessage :=
  buf ++ [m]

/-- The buffer state after issuing a sequence of messages, in order, via
`log_buffer.push`. -/
def issueAll (msgs : List LogMessage) : List LogMessage :=
  msgs.foldl logBufferPush []

/--
```
log_buffer.forEach(function (message) {
    syslog.log.apply(null, message);
});
```
`delivered` is the ordered list of messages `syslog` has received so far
(it starts out empty when `syslog` is constructed); each buffered message
is forwarded exactly once, in buffer order. -/
def flushBuffer (delivered : List LogMessage) (buf : List LogMessage) : List LogMessage :=
  buf.foldl (fun d m => d ++ [m]) delivered

/-! ## Concrete fixtures

A small search-path tree exercising every code path: a package with an
`index`, a healthy and a faulty leaf, a nested directory, a `test`
folder with one `.specs` file and one stray file; a package without an
`index`; and a stand-alone leaf module. -/

def soloEntry : Entry := .file "solo.jsx" (.ok [("y", .vnum 2)])

def pkgContents : List Entry :=
  [ .folder "lib" [
      .file "index.jsx" (.ok [("x", .vnum 1)]),
      .file "good.jsx" (.ok [("ok", .vbool true)]),
      .file "bad.jsx" (.throws [] "boom"),
      .folder "sub" [ .file "a.jsx" (.ok []) ]
    ],
    .folder "test" [ .file "sample.specs" (.ok []), .file "notes.txt" (.ok []) ],
    .file "package.json" (.ok []) ]

def pkgEntry : Entry := .folder "pkg" pkgContents

def noindexEntry : Entry := .folder "noindex" [ .folder "lib" [ .file "a.jsx" (.ok []) ] ]

/-- A package whose `lib` holds a *nested* package `sub`: `sub` keeps its
code under its own `lib/inner.jsx` and also has a stray sibling file
`direct.jsx` next to (not inside) that `lib`. -/
def c5top : Entry :=
  .folder "p" [ .folder "lib" [ .folder "sub" [
      .folder "lib" [ .file "inner.jsx" (.ok []) ],
      .file "direct.jsx" (.ok []) ] ] ]

/-- A real package directory (it has a `lib` with an `index`)... -/
def c6target : Entry := .folder "real" [ .folder "lib" [ .file "index.jsx" (.ok []) ] ]

/-- ... reachable only through an alias `sub.jsx` sitting inside another
package's `lib`. -/
def c6top : Entry := .folder "p" [ .folder "lib" [ .fsalias "sub.jsx" c6target ] ]

def demoFS : List Entry := [pkgEntry, noindexEntry, soloEntry]

def demoRegistry : Registry := load_modules [demoFS]

def demoPkg : Module := buildModuleTop pkgEntry

/-! ## Helper lemmas -/

theorem getKey_setKey_self {α : Type} (l : List (String × α)) (k : String) (v : α) :
    getKey (setKey l k v) k = some v := by
  induction l with
  | nil => simp [setKey, getKey]
  | cons hd tl ih =>
      obtain ⟨k', v'⟩ := hd
      by_cases h : k' = k
      · simp [setKey, h, getKey]
      · simp [setKey, h, getKey, ih]

theorem isSome_getKey_setKey {α : Type} (l : List (String × α)) (k k' : String) (v : α) :
    (getKey (setKey l k v) k').isSome = true ↔ k' = k ∨ (getKey l k').isSome = true := by
  induction l with
  | nil =>
      by_cases h : k = k'
      · subst h; simp [setKey, getKey]
      · simp [setKey, getKey, h, Ne.symm h]
  | cons hd tl ih =>
      obtain ⟨k'', v'⟩ := hd
      by_cases h1 : k'' = k
      · subst h1
        by_cases h2 : k'' = k'
        · subst h2; simp [setKey, getKey]
        · simp [setKey, getKey, h2, Ne.symm h2]
      · by_cases h2 : k'' = k'
        · subst h2; simp [setKey, getKey, h1]
        · simp [setKey, getKey, h1, h2, ih]

theorem mem_of_getKey_isSome {α : Type} (l : List (String × α)) (k : String)
    (h : (getKey l k).isSome = true) : k ∈ l.map Prod.fst := by
  induction l with
  | nil => simp [getKey] at h
  | cons hd tl ih =>
      obtain ⟨k', v⟩ := hd
      by_cases hk : k' = k
      · simp [hk]
      · simp only [getKey, if_neg hk] at h
        simp [ih h]

theorem loadIndexOf_of_getKey_some (subs : List (String × Module)) (m : Module)
    (h : getKey subs "index" = some m) : loadIndexOf subs = m.load := by
  induction subs with
  | nil => simp [getKey] at h
  | cons hd tl ih =>
      obtain ⟨k, m'⟩ := hd
      by_cases hk : k = "index"
      · subst hk
        have h0 : getKey (("index", m') :: tl) "index" = some m' := by simp [getKey]
        rw [h0] at h
        have h1 : m' = m := Option.some.inj h
        subst h1
        simp [loadIndexOf]
      · simp only [getKey, if_neg hk] at h
        simp [loadIndexOf, hk, ih h]

theorem loadIndexOf_of_getKey_none (subs : List (String × Module))
    (h : getKey subs "index" = none) : loadIndexOf subs = .error typeErrorMsg := by
  induction subs with
  | nil => simp [loadIndexOf]
  | cons hd tl ih =>
      obtain ⟨k, m'⟩ := hd
      by_cases hk : k = "index"
      · subst hk; simp [getKey] at h
      · simp only [getKey, if_neg hk] at h
        simp [loadIndexOf, hk, ih h]

mutual

/-- Every successful `load()` call executes exactly one module body: a
leaf runs its own source once, a package delegates to its `index` chain
ending in one leaf evaluation. -/
theorem load_evals_one : ∀ (m : Module) (out : LoadOut),
    m.load = .ok out → countEvals out.events = 1
  | .mk i p s dc subs, out, h => by
      rw [Module.load] at h
      by_cases hp : p = true
      · rw [if_pos hp] at h
        exact loadIndexOf_evals_one subs out h
      · rw [if_neg hp] at h
        injection h with h1
        subst h1
        cases s <;> simp [Module.eval, countEvals, Event.isEval, List.filter]

theorem loadIndexOf_evals_one : ∀ (l : List (String × Module)) (out : LoadOut),
    loadIndexOf l = .ok out → countEvals out.events = 1
  | [], out, h => by simp [loadIndexOf] at h
  | (k, m) :: rest, out, h => by
      rw [loadIndexOf] at h
      by_cases hk : k = "index"
      · rw [if_pos hk] at h
        exact load_evals_one m out h
      · rw [if_neg hk] at h
        exact loadIndexOf_evals_one rest out h

end

theorem buildModule_id (e : Entry) : (buildModule e).id = displayId e.name := by
  cases e <;> rfl

theorem isSome_getKey_buildSubmodules (l : List Entry) (acc : List (String × Module)) (k : String) :
    (getKey (buildSubmodules l acc) k).isSome = true ↔
      (∃ e ∈ l, _is_valid_module e = true ∧ displayId e.name = k) ∨
        (getKey acc k).isSome = true := by
  induction l generalizing acc with
  | nil => simp [buildSubmodules]
  | cons e rest ih =>
      by_cases hv : _is_valid_module e = true
      · rw [buildSubmodules, if_pos hv, ih]
        simp only [isSome_getKey_setKey, buildModule_id, List.mem_cons]
        constructor
        · rintro (⟨e', he', hv', hk⟩ | h | h)
          · exact Or.inl ⟨e', Or.inr he', hv', hk⟩
          · exact Or.inl ⟨e, Or.inl rfl, hv, h.symm⟩
          · exact Or.inr h
        · rintro (⟨e', rfl | he', hv', hk⟩ | h)
          · exact Or.inr (Or.inl hk.symm)
          · exact Or.inl ⟨e', he', hv', hk⟩
          · exact Or.inr (Or.inr h)
      · rw [buildSubmodules, if_neg hv, ih]
        constructor
        · rintro (⟨e', he', hv', hk⟩ | h)
          · exact Or.inl ⟨e', List.mem_cons_of_mem _ he', hv', hk⟩
          · exact Or.inr h
        · rintro (⟨e', he', hv', hk⟩ | h)
          · rcases List.mem_cons.mp he' with rfl | he''
            · exact absurd hv' hv
            · exact Or.inl ⟨e', he'', hv', hk⟩
          · exact Or.inr h

theorem get_submodule_error (terms : List String) :
    ∀ (m : Module) (e : String), m.get_submodule terms = .error e → e = typeErrorMsg := by
  induction terms with
  | nil => intro m e h; simp [Module.get_submodule] at h
  | cons t rest ih =>
      intro m e h
      rw [Module.get_submodule] at h
      by_cases hr : rest.isEmpty
      · rw [if_pos hr] at h; exact absurd h (by simp)
      · rw [if_neg hr] at h
        cases hk : getKey m.submodules t with
        | none =>
            rw [hk] at h
            injection h with h1
            exact h1.symm
        | some sub =>
            rw [hk] at h
            exact ih sub e h

theorem foldl_logBufferPush (l acc : List LogMessage) :
    l.foldl logBufferPush acc = acc ++ l := by
  induction l generalizing acc with
  | nil => simp
  | cons hd tl ih => simp [List.foldl, logBufferPush, ih]

theorem foldl_snoc (l acc : List LogMessage) :
    l.foldl (fun d m => d ++ [m]) acc = acc ++ l := by
  induction l generalizing acc with
  | nil => simp
  | cons hd tl ih => simp [List.foldl, ih]

theorem isSome_getKey_assign (props : List (String × Value)) :
    ∀ (g : List (String × Value)) (k : String),
      ((getKey g k).isSome = true ∨ k ∈ props.map Prod.fst) →
      (getKey (props.foldl (fun g p => setKey g p.1 p.2) g) k).isSome = true := by
  induction props with
  | nil =>
      intro g k h
      simpa using h.resolve_right (by simp)
  | cons p rest ih =>
      intro g k h
      rw [List.foldl_cons]
      apply ih
      by_cases hk : k = p.1
      · left
        rw [hk, getKey_setKey_self]
        rfl
      · rcases h with h | h
        · left
          exact (isSome_getKey_setKey g p.1 k p.2).mpr (Or.inr h)
        · rw [List.map_cons, List.mem_cons] at h
          rcases h with h1 | h1
          · exact absurd h1 hk
          · exact Or.inr h1

/-! ## Claims -/

/-- **C8.** Every log message issued before the logging collaborator
exists is appended to an ordered buffer (`log_buffer.push`), and once the
logger becomes available (`syslog`) all buffered messages are replayed to
it in their original issue order — the delivered sequence is exactly the
issued sequence, so no message is dropped and none is duplicated. -/
theorem c8_log_buffer_replay (msgs : List LogMessage) :
    issueAll msgs = msgs ∧ flushBuffer [] (issueAll msgs) = msgs := by
  have h1 : issueAll msgs = msgs := by
    rw [issueAll, foldl_logBufferPush]
    simp
  refine ⟨h1, ?_⟩
  rw [flushBuffer, h1, foldl_snoc]
  simp

/-- **C3.** A leaf module whose source raises during evaluation has the
exception caught and converted into a recoverable load failure: `load()`
still returns the (partial or empty) exports container, and exactly one
failure message tagged with the module's id and the underlying error is
pushed to the logging collaborator; a sibling leaf whose source succeeds
yields its exports with zero log entries. -/
theorem c3_eval_failure_contained :
    (∀ (m : Module) (part : Exports) (err : String),
        m.packaged = false → m.src = .throws part err →
        m.load = .ok ⟨part,
          [.evaluated m.id,
           .logged 3 ("Could not fully load " ++ m.id ++ "\n" ++ err)]⟩ ∧
        loggedEvents [.evaluated m.id,
            .logged 3 ("Could not fully load " ++ m.id ++ "\n" ++ err)] =
          [.logged 3 ("Could not fully load " ++ m.id ++ "\n" ++ err)]) ∧
    (∀ (m : Module) (e : Exports),
        m.packaged = false → m.src = .ok e →
        m.load = .ok ⟨e, [.evaluated m.id]⟩ ∧
        loggedEvents [Event.evaluated m.id] = []) := by
  constructor
  · rintro ⟨i, p, s, dc, subs⟩ part err hp hs
    simp only [Module.packaged] at hp
    simp only [Module.src] at hs
    subst hp hs
    constructor
    · rw [Module.load]
      simp [Module.eval, Module.id, Module.src]
    · simp [loggedEvents, Event.isLog, List.filter]
  · rintro ⟨i, p, s, dc, subs⟩ e hp hs
    simp only [Module.packaged] at hp
    simp only [Module.src] at hs
    subst hp hs
    constructor
    · rw [Module.load]
      simp [Module.eval, Module.id, Module.src]
    · simp [loggedEvents, Event.isLog, List.filter]

/-- **C3 witness.** The `bad` leaf of the demo package (raises `"boom"`)
loads to empty exports with exactly the one tagged log push; its sibling
`good` loads to `{ok: true}` with no events besides its own evaluation. -/
theorem c3_eval_failure_contained_witness :
    (Module.mk "bad" false (.throws [] "boom") [] []).load =
      .ok ⟨[], [.evaluated "bad", .logged 3 "Could not fully load bad\nboom"]⟩ ∧
    (Module.mk "good" false (.ok [("ok", .vbool true)]) [] []).load =
      .ok ⟨[("ok", .vbool true)], [.evaluated "good"]⟩ :=
  ⟨(c3_eval_failure_contained.1 (Module.mk "bad" false (.throws [] "boom") [] [])
      [] "boom" rfl rfl).1,
   (c3_eval_failure_contained.2 (Module.mk "good" false (.ok [("ok", .vbool true)]) [] [])
      [("ok", .vbool true)] rfl rfl).1⟩

/-- **C9.** (implicit) A package descriptor whose children contain no
`"index"` entry: `load()` — directly or through `require` of the package
name — raises a `TypeError` that propagates uncaught to the caller
(`.error`), with nothing logged and no empty-exports fallback; the
failure containment of `Module.eval` applies only to leaf evaluation. -/
theorem c9_missing_index_uncaught :
    (∀ m : Module, m.packaged = true → getKey m.submodules "index" = none →
        m.load = .error typeErrorMsg) ∧
    (∀ (reg : Registry) (p : String) (pkg : Module),
        jsSplit p '/' = [p] → getKey reg p = some pkg →
        pkg.packaged = true → getKey pkg.submodules "index" = none →
        require reg p = .error typeErrorMsg) := by
  have hload : ∀ m : Module, m.packaged = true → getKey m.submodules "index" = none →
      m.load = .error typeErrorMsg := by
    rintro ⟨i, p, s, dc, subs⟩ hp hidx
    simp only [Module.packaged] at hp
    simp only [Module.submodules] at hidx
    subst hp
    rw [Module.load, if_pos rfl]
    exact loadIndexOf_of_getKey_none subs hidx
  refine ⟨hload, ?_⟩
  intro reg p pkg hsplit hreg hp hidx
  rw [require, hsplit]
  simp only [hreg, List.isEmpty_nil, if_true]
  exact hload pkg hp hidx

/-- **C9 witness.** The demo package `noindex` (whose `lib` holds only
`a.jsx`) errors out of both `load()` and `require "noindex"`. -/
theorem c9_missing_index_uncaught_witness :
    (buildModuleTop noindexEntry).load = .error typeErrorMsg ∧
    require demoRegistry "noindex" = .error typeErrorMsg :=
  ⟨c9_missing_index_uncaught.1 (buildModuleTop noindexEntry) rfl rfl,
   c9_missing_index_uncaught.2 demoRegistry "noindex" (buildModuleTop noindexEntry)
     rfl rfl rfl rfl⟩

/-- **C7.** For a loader whose directory has a `test` child folder,
`getTests()` returns exactly the entries of that folder whose name
matches `*.specs` (non-matching files are excluded); when no such folder
exists it returns the empty sequence. -/
theorem c7_get_tests_spec :
    (∀ (m : Module) (tcs : List Entry),
        findFolder m.dirContents "test" = some tcs →
        m.get_tests = tcs.filter (fun e => strEndsWith e.name ".specs") ∧
        ∀ e : Entry, e ∈ m.get_tests ↔ e ∈ tcs ∧ strEndsWith e.name ".specs" = true) ∧
    (∀ m : Module, findFolder m.dirContents "test" = none → m.get_tests = []) := by
  constructor
  · intro m tcs h
    have h1 : m.get_tests = tcs.filter (fun e => strEndsWith e.name ".specs") := by
      rw [Module.get_tests, h]
    refine ⟨h1, ?_⟩
    intro e
    rw [h1, List.mem_filter]
  · intro m h
    rw [Module.get_tests, h]

/-- **C4.** Package re-export: for a package `p` with an `index` child,
`require "p"` and `require "p/index"` return the same value; loading the
package delegates to (and adopts the exports of) the `index` child's own
`load()`. -/
theorem c4_package_reexport (reg : Registry) (p : String) (pkg idx : Module)
    (hsplit1 : jsSplit p '/' = [p])
    (hsplit2 : jsSplit (p ++ "/index") '/' = [p, "index"])
    (hreg : getKey reg p = some pkg)
    (hpkg : pkg.packaged = true)
    (hidx : getKey pkg.submodules "index" = some idx) :
    require reg p = require reg (p ++ "/index") ∧ require reg p = idx.load := by
  have hload : pkg.load = idx.load := by
    obtain ⟨i, pp, s, dc, subs⟩ := pkg
    simp only [Module.packaged] at hpkg
    simp only [Module.submodules] at hidx
    subst hpkg
    rw [Module.load, if_pos rfl]
    exact loadIndexOf_of_getKey_some subs idx hidx
  have h1 : require reg p = idx.load := by
    rw [require, hsplit1]
    simp [hreg, hload]
  have h2 : require reg (p ++ "/index") = idx.load := by
    rw [require, hsplit2]
    simp [hreg, Module.get_submodule, hidx]
  exact ⟨h1.trans h2.symm, h1⟩

/-- **C4 witness.** In the demo registry, `require "pkg"` and
`require "pkg/index"` agree and both equal the `index` leaf's load. -/
theorem c4_package_reexport_witness :
    require demoRegistry "pkg" = require demoRegistry ("pkg" ++ "/index") ∧
    require demoRegistry "pkg" =
      (buildModule (Entry.file "index.jsx" (.ok [("x", .vnum 1)]))).load :=
  c4_package_reexport demoRegistry "pkg" demoPkg
    (buildModule (Entry.file "index.jsx" (.ok [("x", .vnum 1)])))
    rfl rfl rfl rfl rfl

/-- **C2 counterexample.** `require "pkg/q"` on a registry whose package
`pkg` has no submodule `q` fails — but with the generic `TypeError`
message, which names neither the full identifier `"pkg/q"` nor even the
missing segment `"q"`, refuting the claim that the error message always
names the full originally requested identifier. -/
theorem c2_counterexample :
    require demoRegistry "pkg/q" = .error typeErrorMsg ∧
    strMentions typeErrorMsg "pkg/q" = false ∧
    strMentions typeErrorMsg "q" = false :=
  ⟨rfl, by decide, by decide⟩

/-- **C2 (amended).** Resolution failures split in two: a missing *first*
segment raises `Error("No package named " + module_id)`, naming the full
identifier; a missing *later* segment instead raises the generic
`TypeError` of a member access on `undefined`, whose constant message
does not name the identifier. -/
theorem c2_amended_not_found_errors :
    (∀ (reg : Registry) (id : String),
        getKey reg ((jsSplit id '/').headD "") = none →
        require reg id = .error ("No package named " ++ id)) ∧
    (∀ (reg : Registry) (id first : String) (terms : List String) (pkg : Module),
        jsSplit id '/' = first :: terms → terms ≠ [] →
        getKey reg first = some pkg →
        (∀ sub : Module, pkg.get_submodule terms ≠ .ok (some sub)) →
        require reg id = .error typeErrorMsg) := by
  constructor
  · intro reg id h
    rw [require]
    cases hs : jsSplit id '/' with
    | nil => rfl
    | cons f ts =>
        rw [hs] at h
        simp only [List.headD_cons] at h
        simp [h]
  · intro reg id first terms pkg hs ht hreg hsub
    have ht2 : terms.isEmpty = false := by
      cases terms with
      | nil => exact absurd rfl ht
      | cons a b => rfl
    rw [require, hs]
    cases hg : pkg.get_submodule terms with
    | error e =>
        have he : e = typeErrorMsg := get_submodule_error terms pkg e hg
        subst he
        simp [hreg, ht2, hg]
    | ok o =>
        cases o with
        | none => simp [hreg, ht2, hg]
        | some sub => exact absurd hg (hsub sub)

/-- **C2 witness.** A missing top-level id produces the named error; the
demo package's missing submodule `q` produces the generic `TypeError`. -/
theorem c2_amended_not_found_errors_witness :
    require demoRegistry "nonexistent" = .error ("No package named " ++ "nonexistent") ∧
    require demoRegistry "pkg/q" = .error typeErrorMsg :=
  ⟨c2_amended_not_found_errors.1 demoRegistry "nonexistent" rfl,
   c2_amended_not_found_errors.2 demoRegistry "pkg/q" "pkg" ["q"] demoPkg rfl
     (by simp) rfl
     (fun sub h => Option.noConfusion (Except.ok.inj h))⟩

/-- **C1 counterexample.** Loading is *not* memoized: calling
`require "solo"` twice on the demo registry executes the module body
twice — one `evaluated` event per call — refuting the claim that the
body executes exactly once and later calls return a cached outcome
without re-executing the source. -/
theorem c1_counterexample :
    requireTwiceTrace demoRegistry "solo" = [.evaluated "solo", .evaluated "solo"] ∧
    countEvals (requireTwiceTrace demoRegistry "solo") ≠ 1 :=
  ⟨rfl, by decide⟩

/-- **C1 (amended).** Every call to `load()` re-executes: a successful
`require` evaluates exactly one module body *per call*, so two calls on
the same identifier produce the same trace twice over — two executions in
total, never one (no caching; the exports value is recomputed, though in
this deterministic model the two calls return equal values). -/
theorem c1_amended_no_memoization (reg : Registry) (id : String) (out : LoadOut)
    (h : require reg id = .ok out) :
    countEvals out.events = 1 ∧
    requireTwiceTrace reg id = out.events ++ out.events ∧
    countEvals (requireTwiceTrace reg id) = 2 := by
  have h1 : countEvals out.events = 1 := by
    unfold require at h
    split at h
    · simp at h
    · split at h
      · split at h
        · exact load_evals_one _ out h
        · split at h
          · simp at h
          · simp at h
          · exact load_evals_one _ out h
      · simp at h
  have h2 : requireTwiceTrace reg id = out.events ++ out.events := by
    rw [requireTwiceTrace, h]
    rfl
  refine ⟨h1, h2, ?_⟩
  rw [h2]
  have h3 : (out.events.filter Event.isEval).length = 1 := h1
  simp [countEvals, List.filter_append, h3]

/-- **C1 witness.** Instantiating at the demo leaf `solo`. -/
theorem c1_amended_no_memoization_witness :
    countEvals [Event.evaluated "solo"] = 1 ∧
    requireTwiceTrace demoRegistry "solo" =
      [Event.evaluated "solo"] ++ [Event.evaluated "solo"] ∧
    countEvals (requireTwiceTrace demoRegistry "solo") = 2 :=
  c1_amended_no_memoization demoRegistry "solo"
    ⟨[("y", .vnum 2)], [.evaluated "solo"]⟩ rfl

/-- **C7 witness.** The demo package's `test` folder holds
`sample.specs` and `notes.txt`; `getTests()` yields exactly the one
`.specs` entry.  The stand-alone leaf `solo` has no `test` folder and
yields the empty sequence. -/
theorem c7_get_tests_spec_witness :
    demoPkg.get_tests =
      [Entry.file "sample.specs" (.ok []), Entry.file "notes.txt" (.ok [])].filter
        (fun e => strEndsWith e.name ".specs") ∧
    (buildModule soloEntry).get_tests = [] :=
  ⟨(c7_get_tests_spec.1 demoPkg
      [Entry.file "sample.specs" (.ok []), Entry.file "notes.txt" (.ok [])] rfl).1,
   c7_get_tests_spec.2 (buildModule soloEntry) rfl⟩

/-- **C5 counterexample.** The *nested* package `sub` of `c5top` gets its
children from its own directory — `lib` (as a folder child!) and
`direct` — not from inside its `lib` subdirectory, which would have given
exactly `inner`.  This refutes the claim that every package directory,
top-level or nested, is scanned inside its `lib` subdirectory. -/
theorem c5_counterexample :
    Option.map (fun m => m.submodules.map Prod.fst)
        (getKey (buildModuleTop c5top).submodules "sub") = some ["lib", "direct"] ∧
    some ["lib", "direct"] ≠ some ["inner"] :=
  ⟨rfl, by decide⟩

/-- **C5 (amended).** Only a *top-level* package (built with
`is_package = true` by `load_modules`) is scanned inside its `lib`
subdirectory; a nested directory is scanned directly.  In both scans,
exactly the entries that are folders or `.jsx` files become children
(keyed by their derived id). -/
theorem c5_amended_scan_roots :
    (∀ (n k : String) (cs : List Entry),
        (getKey (buildModuleTop (.folder n cs)).submodules k).isSome = true ↔
          ∃ e ∈ libContents cs, _is_valid_module e = true ∧ displayId e.name = k) ∧
    (∀ (n k : String) (cs : List Entry),
        (getKey (buildModule (.folder n cs)).submodules k).isSome = true ↔
          ∃ e ∈ cs, _is_valid_module e = true ∧ displayId e.name = k) := by
  constructor
  · intro n k cs
    have hsub : (buildModuleTop (.folder n cs)).submodules =
        buildSubmodules (libContents cs) [] := rfl
    rw [hsub, isSome_getKey_buildSubmodules]
    simp [getKey]
  · intro n k cs
    have hsub : (buildModule (.folder n cs)).submodules =
        buildSubmodules cs [] := rfl
    rw [hsub, isSome_getKey_buildSubmodules]
    simp [getKey]

/-- **C5 witness.** The demo package has an `index` child precisely
because `lib/index.jsx` exists. -/
theorem c5_amended_scan_roots_witness :
    (getKey (buildModuleTop (.folder "pkg" pkgContents)).submodules "index").isSome = true :=
  (c5_amended_scan_roots.1 "pkg" "index" pkgContents).mpr
    ⟨Entry.file "index.jsx" (.ok [("x", .vnum 1)]), List.Mem.head _, rfl, rfl⟩

/-- **C6 counterexample.** In the submodule scan, the alias `sub.jsx`
pointing at the package directory `real` is *not* resolved: the child
`sub` is classified as a leaf (`packaged = false`), although resolving
first — as the top-level scan does — would classify it as a package.
This refutes the claim that aliases are resolved before classification in
every scan. -/
theorem c6_counterexample :
    Option.map Module.packaged (getKey (buildModuleTop c6top).submodules "sub") =
      some false ∧
    (buildModuleTop (Entry.resolve (.fsalias "sub.jsx" c6target))).packaged = true :=
  ⟨rfl, rfl⟩

/-- **C6 (amended).** Alias resolution happens only in the top-level
registry scan: there, an alias entry is fully interchangeable with its
target (provided both pass the validity filter), while in the submodule
scan an alias is always classified as a leaf, whatever its target. -/
theorem c6_amended_alias_resolution :
    (∀ (n pkgname : String) (cs : List Entry),
        _is_valid_module (.fsalias n (.folder pkgname cs)) = true →
        load_modules [[.fsalias n (.folder pkgname cs)]] =
          load_modules [[.folder pkgname cs]]) ∧
    (∀ (n : String) (t : Entry), (buildModule (.fsalias n t)).packaged = false) := by
  constructor
  · intro n pkgname cs hv
    have hv2 : strEndsWith n ".jsx" = true := by
      simpa [_is_valid_module, Entry.isFolder, Entry.name] using hv
    simp [load_modules, List.filter, _is_valid_module, Entry.isFolder, Entry.name,
          Entry.resolve, hv2]
  · intro n t
    rfl

/-- **C6 witness.** The alias `sub.jsx` → `real` at top level builds the
same registry as `real` itself; as a submodule it is a leaf. -/
theorem c6_amended_alias_resolution_witness :
    load_modules [[.fsalias "sub.jsx" c6target]] = load_modules [[c6target]] ∧
    (buildModule (.fsalias "sub.jsx" c6target)).packaged = false :=
  ⟨c6_amended_alias_resolution.1 "sub.jsx" "real"
      [ .folder "lib" [ .file "index.jsx" (.ok []) ] ] rfl,
   c6_amended_alias_resolution.2 "sub.jsx" c6target⟩

/-- **C10.** (implicit) `extract` copies into the global namespace every
name reachable by `for (var name in module)` over the resolved exports —
which, ExtendScript being an ES3 engine, includes the enumerable helpers
this library installs on `Object.prototype` (`merge`, `clone`, `keys`,
…), not only the exports mapping's own keys. -/
theorem c10_extract_global_pollution :
    ∀ (reg : Registry) (id : String) (g r : List (String × Value)) (out : LoadOut),
      require reg id = .ok out → extract reg id g = .ok r →
      (∀ name : String, name ∈ (forInProps out.exports).map Prod.fst →
          (getKey r name).isSome = true) ∧
      (∀ q : String, q ∈ objectPrototypeExtensions.map Prod.fst →
          (getKey r q).isSome = true) := by
  intro reg id g r out hreq hext
  rw [extract, hreq] at hext
  injection hext with hr
  subst hr
  constructor
  · intro name hname
    exact isSome_getKey_assign (forInProps out.exports) g name (Or.inr hname)
  · intro q hq
    apply isSome_getKey_assign
    right
    rw [List.mem_map] at hq
    obtain ⟨pair, hpair, hfst⟩ := hq
    obtain ⟨q1, v⟩ := pair
    simp only at hfst
    subst hfst
    rw [forInProps, List.map_append, List.mem_append]
    cases hgk : getKey out.exports q1 with
    | some w =>
        exact Or.inl (mem_of_getKey_isSome _ q1 (by rw [hgk]; rfl))
    | none =>
        right
        rw [List.mem_map]
        refine ⟨(q1, v), ?_, rfl⟩
        rw [List.mem_filter]
        exact ⟨hpair, by simp [hgk]⟩

set_option maxHeartbeats 4000000 in
/-- **C10 witness.** Extracting the demo leaf `solo` (own key `y` only)
also installs the inherited `merge` into the global namespace. -/
theorem c10_extract_global_pollution_witness :
    (getKey ((forInProps [("y", Value.vnum 2)]).foldl
        (fun g (p : String × Value) => setKey g p.1 p.2) []) "merge").isSome = true :=
  (c10_extract_global_pollution demoRegistry "solo" []
      ((forInProps [("y", Value.vnum 2)]).foldl
        (fun g (p : String × Value) => setKey g p.1 p.2) [])
      ⟨[("y", Value.vnum 2)], [Event.evaluated "solo"]⟩ rfl rfl).2 "merge"
    (by decide)

end Extendables
